import Mathlib

/-!
Verification development for the phlogiston temporal-reconstruction and
recategorization engine (src/phlogiston.py).  The Python functions
`reconstruct_task_on_date`, `import_recategorization_file`, `reconstruct`
and `recategorize` are shallowly embedded below; database accessors that
live in SQL files outside the repository snapshot (get_transaction_value,
get_projects_by_name, get_edge_value, the category-table uniqueness
constraint) are taken as explicit inputs or parameters, so every theorem
is about what the Python code does with the values those accessors return.
-/

namespace Phlogiston

/-- Wikimedia Phabricator reserved work-type tag ids (src line 45). -/
def PHAB_TAGS_epic : Int := 942

/-- Reserved "new functionality" work-type tag id (src line 45). -/
def PHAB_TAGS_new : Int := 1453

/-- Reserved "maintenance" work-type tag id (src line 45). -/
def PHAB_TAGS_maint : Int := 1454

/-- Reserved "category" work-type tag id (src line 45). -/
def PHAB_TAGS_category : Int := 1656

/-- Value of a run of decimal digits, `none` on any non-digit. -/
def allDigitsVal (acc : Nat) : List Char → Option Nat
  | [] => some acc
  | c :: cs => if c.isDigit then allDigitsVal (acc * 10 + (c.toNat - 48)) cs else none

/-- Integer syntax accepted by Python `int`: optional sign then a
non-empty digit run. -/
def pyIntOfChars : List Char → Option Int
  | [] => none
  | '-' :: cs => if cs = [] then none else (allDigitsVal 0 cs).map (fun n => -(n : Int))
  | '+' :: cs => if cs = [] then none else (allDigitsVal 0 cs).map (fun n => (n : Int))
  | cs => (allDigitsVal 0 cs).map (fun n => (n : Int))

/-- Python `int(s)`: parse an integer from a string, allowing surrounding
whitespace; returns `none` where Python raises `ValueError`. -/
def pyInt? (s : String) : Option Int :=
  pyIntOfChars (((s.data.dropWhile Char.isWhitespace).reverse.dropWhile
    Char.isWhitespace).reverse)

/-- Python `s.lower()` (ASCII-sufficient for the tokens compared here). -/
def pyLower (s : String) : String :=
  ⟨s.data.map Char.toLower⟩

/-- Python `s.split()`: split on whitespace runs, dropping empty pieces. -/
def splitWsAux : List Char → List Char → List (List Char)
  | [], acc => if acc = [] then [] else [acc.reverse]
  | c :: cs, acc =>
    if c.isWhitespace then
      (if acc = [] then splitWsAux cs [] else acc.reverse :: splitWsAux cs [])
    else splitWsAux cs (c :: acc)

/-- Python `s.split()` over a string. -/
def pySplitWs (s : String) : List String :=
  (splitWsAux s.data []).map (fun l => ⟨l⟩)

/-- Is `needle` a contiguous sublist starting at some position of `hay`? -/
def sublistAt (needle hay : List Char) : Bool :=
  match hay with
  | [] => needle = []
  | _ :: t => needle.isPrefixOf hay || sublistAt needle t

/-- Python truthiness of an `int`-or-`None` value: `None` and `0` are falsy. -/
def pyTruthyOptInt : Option Int → Bool
  | none => false
  | some v => v != 0

/-- Python `needle in haystack` on strings: substring containment. -/
def pyInStr (needle hay : String) : Bool :=
  sublistAt needle.data hay.data

/-- One row of the `task_on_date` table as inserted by
`reconstruct_task_on_date` (src lines 1093-1116). -/
structure TaskOnDateRow where
  scope : String
  date : Nat
  id : Nat
  status : String
  projectId : Int
  project : String
  projectcolumn : String
  points : Option Int
  maintType : String
  priority : String
deriving DecidableEq

/-- The per-task query results `reconstruct_task_on_date` reads from the
database: the `maniphest_task` row (title, story_points), the as-of values
of the status / priority / points attributes, the as-of edge (tag) set, and
the decoded `core:columns` transactions as (boardPHID, columnPHID) pairs. -/
structure TaskQueryResults where
  taskInfo : Option (String × String)
  statusRaw : Option String
  priorityRaw : Option String
  pointsRaw : Option String
  edges : List Int
  pcTrans : List (String × String)

/-- The preloaded lookup dictionaries built in `reconstruct`
(src lines 342-368) and passed to `reconstruct_task_on_date`. -/
structure Lookups where
  project_id_list : List Int
  project_id_to_name : Int → Option String
  project_name_to_phid : String → Option String
  column_dict : String → Option String

/-- `points_from_info` (src lines 990-993): Python
`int(task_info[1])` with a bare `except` returning `None`. -/
def points_from_info (q : TaskQueryResults) : Option Int :=
  match q.taskInfo with
  | none => none
  | some (_, sp) => pyInt? sp

/-- `points_from_trans` (src lines 1027-1030): Python
`int(points_raw[0])` with a bare `except` returning `None`. -/
def points_from_trans (q : TaskQueryResults) : Option Int :=
  match q.pointsRaw with
  | none => none
  | some s => pyInt? s

/-- The points fallback chain (src lines 1032-1037).  Mirrors Python
truthiness: `if points_from_trans:` is false for both `None` and `0`, so a
value of 0 falls through to the next stage. -/
def prettyPoints (q : TaskQueryResults) (default_points : Option Int) : Option Int :=
  if pyTruthyOptInt (points_from_trans q) then points_from_trans q
  else if pyTruthyOptInt (points_from_info q) then points_from_info q
  else default_points

/-- Maintenance-type resolution (src lines 1051-1056). -/
def maintTypeOf (edges : List Int) : String :=
  if PHAB_TAGS_new ∈ edges then "New Functionality"
  else if PHAB_TAGS_maint ∈ edges then "Maintenance"
  else ""

/-- Best-edge selection loop (src lines 1058-1064): the first project of
the caller-supplied `project_id_list` that is present in the as-of edge
set. -/
def firstMatch (candidates edges : List Int) : Option Int :=
  match candidates with
  | [] => none
  | c :: rest => if c ∈ edges then some c else firstMatch rest edges

/-- Board-column resolution loop (src lines 1082-1091): the first decoded
`core:columns` transaction whose boardPHID contains the matched project
phid as a substring; a missing column_dict entry is a KeyError crash. -/
def findColumn (pcTrans : List (String × String)) (project_phid : String)
    (column_dict : String → Option String) : Except String String :=
  match pcTrans with
  | [] => .ok ""
  | (board, colPhid) :: rest =>
    if pyInStr project_phid board then
      match column_dict colPhid with
      | some name => .ok name
      | none => .error ("KeyError: " ++ colPhid)
    else findColumn rest project_phid column_dict

/-- The error message raised when an active task has no as-of edges
(src lines 1047-1050). -/
def missingEdgeMsg (task_id : Nat) : String :=
  "Task " ++ toString task_id ++ " has no edges; it may have been removed from the data, in which case a complete rebuild is appropriate"

/-- `reconstruct_task_on_date` (src lines 970-1116).  Result semantics:
`.error` models an uncaught Python exception (which aborts the run before
the insert), `.ok none` models the silent early `return` with no insert,
and `.ok (some row)` models the single `task_on_date` insert.  The guard
`if not best_edge` is Python truthiness on a value that is either the
sentinel string (no candidate matched) or a matched project id, so a
matched id of 0 also takes the silent-return branch. -/
def reconstruct_task_on_date (task_id : Nat) (working_date : Nat)
    (scope : String) (default_points : Option Int)
    (lk : Lookups) (q : TaskQueryResults) :
    Except String (Option TaskOnDateRow) :=
  if q.edges = [] then
    .error (missingEdgeMsg task_id)
  else
    match firstMatch lk.project_id_list q.edges with
    | none => .ok none
    | some best_edge =>
      if best_edge = 0 then .ok none
      else
        match lk.project_id_to_name best_edge with
        | none => .error ("KeyError: project_id_to_name_dict " ++ toString best_edge)
        | some pretty_project =>
          match lk.project_name_to_phid pretty_project with
          | none => .error ("KeyError: project_name_to_phid_dict " ++ pretty_project)
          | some project_phid =>
            match findColumn q.pcTrans project_phid lk.column_dict with
            | .error e => .error e
            | .ok pretty_column =>
              .ok (some
                { scope := scope
                  date := working_date
                  id := task_id
                  status := q.statusRaw.getD ""
                  projectId := best_edge
                  project := pretty_project
                  projectcolumn := pretty_column
                  points := prettyPoints q default_points
                  maintType := maintTypeOf q.edges
                  priority := q.priorityRaw.getD "" })

/-- Inputs for one task inside one reconstructed day. -/
structure TaskInput where
  task_id : Nat
  q : TaskQueryResults

/-- The per-day task loop in `reconstruct` (src lines 431-433): each task
returned by `get_tasks` is passed to `reconstruct_task_on_date`; an
uncaught exception aborts the run, a silent decline inserts nothing. -/
def reconstructDay (working_date : Nat) (scope : String)
    (default_points : Option Int) (lk : Lookups) :
    List TaskInput → Except String (List TaskOnDateRow)
  | [] => .ok []
  | t :: rest =>
    match reconstruct_task_on_date t.task_id working_date scope default_points lk t.q with
    | .error e => .error e
    | .ok none => reconstructDay working_date scope default_points lk rest
    | .ok (some row) =>
      match reconstructDay working_date scope default_points lk rest with
      | .error e => .error e
      | .ok rows => .ok (row :: rows)

/-! ### Category Rule Set loader (`import_recategorization_file`, src 788-910) -/

/-- One parsed line of the `[scope]_recategorization.csv` file as produced
by `csv.DictReader`: a field is `none` when the column is absent (Python
`KeyError` on access). -/
structure CsvLine where
  rule : Option String
  matchstring : Option String
  id : Option String
  title : Option String
  display : Option String

/-- One row of the `category` table as inserted by the loader
(src lines 796-804). -/
structure StoredRule where
  scope : String
  sortOrder : Nat
  rule : String
  projectIdList : List Int
  projectNameList : List String
  matchstring : String
  title : String
  display : Bool
deriving DecidableEq

/-- The database accessors the loader calls.  `lookup` is the SQL function
`get_projects_by_name` returning (id, name) rows for a LIKE pattern;
`namesOf` is the name query at src line 892; `collides` is the `category`
table uniqueness constraint whose violation raises `IntegrityError`. -/
structure LoaderEnv where
  lookup : String → List (Int × String)
  namesOf : List Int → List String
  collides : StoredRule → List StoredRule → Bool

/-- `valid_rule_list` (src lines 812-813). -/
def validRuleList : List String :=
  ["ProjectByID", "ProjectByName", "ProjectsByWildcard",
   "Intersection", "ProjectColumn", "ParentTask"]

/-- Parsing of the `id` column (src lines 831-836): missing column or empty
value give an empty list; a non-integer word is an uncaught `ValueError`. -/
def parseIdList : Option String → Except String (List Int)
  | none => .ok []
  | some s =>
    if s = "" then .ok []
    else
      (pySplitWs s).mapM
        (fun w =>
          match pyInt? w with
          | some n => Except.ok n
          | none => Except.error ("ValueError: invalid literal for int: " ++ w))

/-- Parsing of the `display` column (src lines 838-843). -/
def parseDisplay : Option String → Bool
  | none => true
  | some d => if pyLower d ∈ ["false", "f", "no", "0"] then false else true

/-- The rule row inserted for each project matched by a
`ProjectsByWildcard` line (src lines 854-863). -/
def wildcardRule (scope : String) (counter : Nat) (pid : Int) (name : String)
    (display : Bool) : StoredRule :=
  { scope := scope, sortOrder := counter, rule := "ProjectByID",
    projectIdList := [pid], projectNameList := [name],
    matchstring := "", title := name, display := display }

/-- The rule row inserted for a `ProjectByName` line (src lines 876-885). -/
def byNameRule (scope : String) (counter : Nat) (pid : Int)
    (matchstring title : String) (display : Bool) : StoredRule :=
  { scope := scope, sortOrder := counter, rule := "ProjectByID",
    projectIdList := [pid], projectNameList := [matchstring],
    matchstring := "", title := title, display := display }

/-- The rule row inserted by the generic branch (src lines 896-906). -/
def plainRule (scope : String) (counter : Nat) (rule : String)
    (idList : List Int) (nameList : List String)
    (matchstring title : String) (display : Bool) : StoredRule :=
  { scope := scope, sortOrder := counter, rule := rule,
    projectIdList := idList, projectNameList := nameList,
    matchstring := matchstring, title := title, display := display }

/-- Error message for an unknown rule kind (src line 823). -/
def invalidRuleMsg (file : String) (counter : Nat) (rule : String) : String :=
  "Error in recat file " ++ file ++ " line " ++ toString counter ++ ": "
    ++ rule ++ " is not a valid rule."

/-- Error message for multiple ids on a single-id rule kind (src line 846). -/
def multiIdMsg (file : String) (counter : Nat) : String :=
  "Error in recat file " ++ file ++ " line " ++ toString counter
    ++ ": this type of rule should have only one id specified"

/-- Error message for `ProjectByName` with no matching project (src line 874). -/
def noMatchMsg (file : String) (counter : Nat) (matchstring : String) : String :=
  "Error in recat file " ++ file ++ " line " ++ toString counter
    ++ ": no matching project found for name " ++ matchstring

/-- The wildcard expansion insert loop (src lines 850-867): one insert per
matched project, a colliding insert is skipped without incrementing the
sort-order counter. -/
def wildcardLoop (env : LoaderEnv) (scope : String) (display : Bool) :
    List (Int × String) → Nat → List StoredRule → Nat × List StoredRule
  | [], counter, db => (counter, db)
  | (pid, name) :: rest, counter, db =>
    let R := wildcardRule scope counter pid name display
    if env.collides R db then wildcardLoop env scope display rest counter db
    else wildcardLoop env scope display rest (counter + 1) (db ++ [R])

/-- Processing of a single csv line (src lines 814-910), threading the
sort-order counter and the `category` table contents. -/
def processLine (env : LoaderEnv) (file scope : String) (line : CsvLine)
    (counter : Nat) (db : List StoredRule) :
    Except String (Nat × List StoredRule) :=
  match line.rule with
  | none => .error "KeyError: rule"
  | some rule =>
    if rule ∉ validRuleList then
      .error (invalidRuleMsg file counter rule)
    else
      match parseIdList line.id with
      | .error e => .error e
      | .ok id_list =>
        if rule ≠ "Intersection" ∧ id_list.length > 1 then
          .error (multiIdMsg file counter)
        else if rule = "ProjectsByWildcard" then
          .ok (wildcardLoop env scope (parseDisplay line.display)
                (env.lookup ("%" ++ line.matchstring.getD "" ++ "%")) counter db)
        else if rule = "ProjectByName" then
          match (env.lookup (line.matchstring.getD "")).head? with
          | none => .error (noMatchMsg file counter (line.matchstring.getD ""))
          | some (pid, _) =>
            if env.collides (byNameRule scope counter pid (line.matchstring.getD "")
                 (line.title.getD "") (parseDisplay line.display)) db
            then .ok (counter, db)
            else .ok (counter + 1,
                   db ++ [byNameRule scope counter pid (line.matchstring.getD "")
                            (line.title.getD "") (parseDisplay line.display)])
        else
          match line.title with
          | none => .error "KeyError: title"
          | some t =>
            if env.collides (plainRule scope counter rule id_list (env.namesOf id_list)
                 (line.matchstring.getD "") t (parseDisplay line.display)) db
            then .ok (counter, db)
            else .ok (counter + 1,
                   db ++ [plainRule scope counter rule id_list (env.namesOf id_list)
                            (line.matchstring.getD "") t (parseDisplay line.display)])

/-- The loader loop over all csv lines (src lines 814-910). -/
def importLoop (env : LoaderEnv) (file scope : String) :
    List CsvLine → Nat → List StoredRule → Except String (List StoredRule)
  | [], _, db => .ok db
  | l :: rest, counter, db =>
    match processLine env file scope l counter db with
    | .error e => .error e
    | .ok (c, db2) => importLoop env file scope rest c db2

/-- `import_recategorization_file` (src lines 788-910): delete the scope's
existing `category` rows, then process the csv lines in order starting at
sort order 0. -/
def import_recategorization_file (env : LoaderEnv) (scope : String)
    (lines : List CsvLine) (db0 : List StoredRule) :
    Except String (List StoredRule) :=
  importLoop env (scope ++ "_recategorization.csv") scope lines 0
    (db0.filter (fun r => r.scope ≠ scope))

/-! ### Recategorization resolver (`recategorize`, src 913-960) -/

/-- The stored-procedure calls issued by `recategorize`. -/
inductive RecatCall
| byProject (scope : String) (ids : List Int) (title : String)
| byIntersection (scope : String) (ids : List Int) (title : String)
| byColumn (scope : String) (ids : List Int) (title matchstring : String)
| byParentTask (scope : String) (ids : List Int) (title matchstring : String)
| purgeLeftover (scope : String)
deriving DecidableEq

/-- Dispatch on one category rule row (src lines 930-954); an unknown rule
kind raises the "Invalid categorization rule" exception. -/
def recategorizeRule (scope : String) (r : StoredRule) : Except String RecatCall :=
  if r.rule = "ProjectByID" then
    .ok (.byProject scope r.projectIdList r.title)
  else if r.rule = "Intersection" then
    .ok (.byIntersection scope r.projectIdList r.title)
  else if r.rule = "ProjectColumn" then
    .ok (.byColumn scope r.projectIdList r.title r.matchstring)
  else if r.rule = "ParentTask" then
    .ok (.byParentTask scope r.projectIdList r.title r.matchstring)
  else
    .error ("Invalid categorization rule " ++ r.rule)

/-- The rule loop of `recategorize` (src lines 923-954). -/
def recatLoop (scope : String) : List StoredRule → Except String (List RecatCall)
  | [] => .ok []
  | r :: rest =>
    match recategorizeRule scope r with
    | .error e => .error e
    | .ok c =>
      match recatLoop scope rest with
      | .error e => .error e
      | .ok cs => .ok (c :: cs)

/-- `recategorize` (src lines 913-960): apply each rule of the scope in
order, then purge leftover snapshots. -/
def recategorize (scope : String) (rules : List StoredRule) :
    Except String (List RecatCall) :=
  match recatLoop scope rules with
  | .error e => .error e
  | .ok cs => .ok (cs ++ [RecatCall.purgeLeftover scope])

/-! ### Reconstruction driver (`reconstruct`, src 335-463) -/

/-- The observable actions of a driver run, in execution order. -/
inductive Op
| wipe
| buildEdges (date : Nat)
| reconDay (queryDate : Nat)
deriving DecidableEq

/-- The `build_edges` loop (src lines 402-411): one call per calendar day
of the window, using the day itself. -/
def buildEdgeOps (working endDate : Nat) : List Op :=
  if working ≤ endDate then
    Op.buildEdges working :: buildEdgeOps (working + 1) endDate
  else []
termination_by endDate + 1 - working

/-- The reconstruction day loop (src lines 417-446): `working_date` is
incremented before the `get_tasks` lookup and the per-task reconstruction,
so the query date for calendar day D is D + 1 (midnight ending day D). -/
def reconDayOps (working endDate : Nat) : List Op :=
  if working ≤ endDate then
    Op.reconDay (working + 1) :: reconDayOps (working + 1) endDate
  else []
termination_by endDate + 1 - working

/-- The outcome of the driver's mode and window selection. -/
structure DriverRun where
  startUsed : Nat
  ops : List Op
deriving DecidableEq

/-- Error message printed before `sys.exit(1)` in incremental mode with
no prior snapshots (src line 389). -/
def incrementalBaseMsg : String :=
  "No data available for incremental run."

/-- `reconstruct` driver (src lines 381-446), with the database values it
reads passed in: `latestSnapshotDate` is `MAX(date)` over the scope's
`task_on_date` rows and `oldestEventDate` is `min(date_modified)` over the
whole transaction log.  Incremental mode overwrites any supplied start
date with the latest snapshot date and exits when there is none; full mode
wipes the scope's snapshots first and defaults a missing start date to the
oldest event date (crashing on an empty event log). -/
def reconstructDriver (incremental : Bool) (start_date : Option Nat)
    (end_date : Nat) (latestSnapshotDate oldestEventDate : Option Nat) :
    Except String DriverRun :=
  if incremental then
    match latestSnapshotDate with
    | none => .error incrementalBaseMsg
    | some d => .ok ⟨d, buildEdgeOps d end_date ++ reconDayOps d end_date⟩
  else
    match (match start_date with | some s => some s | none => oldestEventDate) with
    | none => .error "AttributeError: NoneType object has no attribute date"
    | some s => .ok ⟨s, Op.wipe :: (buildEdgeOps s end_date ++ reconDayOps s end_date)⟩

/-! ### As-of attribute lookup (SQL `get_transaction_value`, not in src) -/

/-- An attribute-change event of the `maniphest_transaction` log. -/
structure TimedEvent where
  id : Nat
  attr : String
  value : String
  ts : Nat
deriving DecidableEq

/-- Seconds per calendar day: day D covers timestamps in
`[D * secondsPerDay, (D+1) * secondsPerDay)`, and a query date Q denotes
midnight at the start of day Q. -/
def secondsPerDay : Nat := 86400

/-- Modelled from the spec: the candidate events of the SQL function
`get_transaction_value` (not in src); spec section 6 `attributeValueAsOf`:
events of the attribute with timestamp at or before the end of the day
strictly preceding the query date. -/
def asOfCandidates (events : List TimedEvent) (attr : String)
    (queryDate : Nat) : List TimedEvent :=
  events.filter (fun e => e.attr == attr && e.ts < queryDate * secondsPerDay)

/-- Modelled from the spec: `attributeValueAsOf` (spec section 6), the SQL
function `get_transaction_value` not being in src: the value of the
chronologically latest candidate event, ties broken by event id ascending. -/
def attributeValueAsOf (events : List TimedEvent) (attr : String)
    (queryDate : Nat) : Option String :=
  ((asOfCandidates events attr queryDate).foldl
    (fun acc e =>
      match acc with
      | none => some e
      | some b => if b.ts < e.ts || (b.ts == e.ts && b.id ≤ e.id) then some e else some b)
    none).map (fun e => e.value)

/-! ### Helper lemmas -/

lemma firstMatch_of_not_mem (cands edges : List Int)
    (h : ∀ c ∈ cands, c ∉ edges) : firstMatch cands edges = none := by
  induction cands with
  | nil => rfl
  | cons c rest ih =>
    simp only [firstMatch]
    rw [if_neg (h c (List.mem_cons_self c rest))]
    exact ih (fun x hx => h x (List.mem_cons_of_mem c hx))

lemma firstMatch_append (pre post edges : List Int) (p : Int)
    (hpre : ∀ c ∈ pre, c ∉ edges) (hp : p ∈ edges) :
    firstMatch (pre ++ p :: post) edges = some p := by
  induction pre with
  | nil => simp [firstMatch, hp]
  | cons c rest ih =>
    simp only [List.cons_append, firstMatch]
    rw [if_neg (hpre c (List.mem_cons_self c rest))]
    exact ih (fun x hx => hpre x (List.mem_cons_of_mem c hx))

lemma reconstruct_err_of_edges_nil (task_id wd : Nat) (scope : String)
    (dp : Option Int) (lk : Lookups) (q : TaskQueryResults)
    (hq : q.edges = []) :
    reconstruct_task_on_date task_id wd scope dp lk q =
      .error (missingEdgeMsg task_id) := by
  unfold reconstruct_task_on_date
  rw [if_pos hq]

lemma reconstruct_ok_points (task_id wd : Nat) (scope : String)
    (dp : Option Int) (lk : Lookups) (q : TaskQueryResults)
    (row : TaskOnDateRow)
    (h : reconstruct_task_on_date task_id wd scope dp lk q = .ok (some row)) :
    row.points = prettyPoints q dp := by
  unfold reconstruct_task_on_date at h
  split at h
  · exact absurd h (by simp)
  · split at h
    · exact absurd h (by simp)
    · split at h
      · exact absurd h (by simp)
      · split at h
        · exact absurd h (by simp)
        · split at h
          · exact absurd h (by simp)
          · split at h
            · exact absurd h (by simp)
            · simp only [Except.ok.injEq, Option.some.injEq] at h
              rw [← h]

lemma prettyPoints_of_trans (q : TaskQueryResults) (dp : Option Int) (v : Int)
    (hv : points_from_trans q = some v) (h0 : v ≠ 0) :
    prettyPoints q dp = some v := by
  unfold prettyPoints
  rw [hv]
  simp [pyTruthyOptInt, h0]

lemma pyTruthyOptInt_false (o : Option Int)
    (h : o = none ∨ o = some 0) : pyTruthyOptInt o = false := by
  rcases h with h | h <;> simp [h, pyTruthyOptInt]

lemma prettyPoints_of_info (q : TaskQueryResults) (dp : Option Int) (w : Int)
    (ht : points_from_trans q = none ∨ points_from_trans q = some 0)
    (hw : points_from_info q = some w) (h0 : w ≠ 0) :
    prettyPoints q dp = some w := by
  unfold prettyPoints
  rw [pyTruthyOptInt_false _ ht, hw]
  simp [pyTruthyOptInt, h0]

lemma prettyPoints_of_default (q : TaskQueryResults) (dp : Option Int)
    (ht : points_from_trans q = none ∨ points_from_trans q = some 0)
    (hi : points_from_info q = none ∨ points_from_info q = some 0) :
    prettyPoints q dp = dp := by
  unfold prettyPoints
  rw [pyTruthyOptInt_false _ ht, pyTruthyOptInt_false _ hi]
  simp

/-! ### Claim C1 -/

/-- Concrete inputs exhibiting the tag-id-0 behaviour of the best-match
loop: candidate list [0], as-of tag set [0], total lookup dictionaries. -/
def lkC1 : Lookups :=
  ⟨[0], fun _ => some "ProjA", fun _ => some "PHID-A", fun _ => some "Col"⟩

/-- Query results for the C1 counterexample: tag set [0]. -/
def qC1 : TaskQueryResults := ⟨none, none, none, none, [0], []⟩

/-- Claim C1 is false as stated: with candidate order [0] and as-of tag
set containing 0, the first candidate tag id (0) is present in the tag
set, yet `reconstruct_task_on_date` silently writes no Snapshot record,
because the Python guard `if not best_edge` treats the matched id 0 like
the no-match sentinel. -/
theorem C1_counterexample :
    firstMatch lkC1.project_id_list qC1.edges = some 0 ∧
    reconstruct_task_on_date 1 10 "scope1" none lkC1 qC1 = .ok none :=
  ⟨rfl, rfl⟩

/-- Claim C1 (amended): for a non-empty as-of tag set, the matched tag is
the first tag id in the caller-supplied candidate order present in the tag
set — never a later candidate and never chosen by recency — and the
Snapshot row is written with it provided that id is nonzero (a matched id
of 0 is conflated with the no-match sentinel and also silently produces no
row); if no candidate is present in the tag set, no row is produced and
this is silent, not an error. -/
theorem C1_best_match_priority (task_id wd : Nat) (scope : String)
    (dp : Option Int) (lk : Lookups) (q : TaskQueryResults)
    (hne : q.edges ≠ []) :
    ((∀ c ∈ lk.project_id_list, c ∉ q.edges) →
        reconstruct_task_on_date task_id wd scope dp lk q = .ok none) ∧
    (∀ pre p post, lk.project_id_list = pre ++ p :: post →
        (∀ c ∈ pre, c ∉ q.edges) → p ∈ q.edges →
        ((p = 0 → reconstruct_task_on_date task_id wd scope dp lk q = .ok none) ∧
         (p ≠ 0 → ∀ nm ph col,
            lk.project_id_to_name p = some nm →
            lk.project_name_to_phid nm = some ph →
            findColumn q.pcTrans ph lk.column_dict = .ok col →
            reconstruct_task_on_date task_id wd scope dp lk q =
              .ok (some { scope := scope, date := wd, id := task_id,
                          status := q.statusRaw.getD "",
                          projectId := p, project := nm, projectcolumn := col,
                          points := prettyPoints q dp,
                          maintType := maintTypeOf q.edges,
                          priority := q.priorityRaw.getD "" })))) := by
  constructor
  · intro hnone
    unfold reconstruct_task_on_date
    rw [if_neg hne, firstMatch_of_not_mem _ _ hnone]
  · intro pre p post hlist hpre hp
    have hfm : firstMatch lk.project_id_list q.edges = some p := by
      rw [hlist]
      exact firstMatch_append pre post q.edges p hpre hp
    constructor
    · intro h0
      unfold reconstruct_task_on_date
      rw [if_neg hne, hfm]
      subst h0
      rfl
    · intro hp0 nm ph col h1 h2 h3
      unfold reconstruct_task_on_date
      rw [if_neg hne, hfm]
      simp only [if_neg hp0, h1, h2, h3]

/-- Candidate list for the C1 amended-theorem witness. -/
def lkC1w : Lookups :=
  ⟨[3, 7], fun i => if i = 3 then some "ProjB" else none,
   fun _ => some "PHID-B", fun _ => some "Col"⟩

/-- Tag set for the C1 amended-theorem witness: item tagged 7, 3, 9 with
candidate order [3, 7]; the matched tag must be 3. -/
def qC1w : TaskQueryResults := ⟨none, none, none, none, [7, 3, 9], []⟩

/-- Witness for the amended C1 theorem at the spec's own priority example:
tag set containing 7, 3, 9 and candidate order [3, 7] match tag 3. -/
theorem C1_best_match_priority_witness :
    reconstruct_task_on_date 4 2 "scope1" none lkC1w qC1w =
      .ok (some { scope := "scope1", date := 2, id := 4,
                  status := "", projectId := 3, project := "ProjB",
                  projectcolumn := "", points := none,
                  maintType := "", priority := "" }) := by
  have h := ((C1_best_match_priority 4 2 "scope1" none lkC1w qC1w
      (by decide)).2 [] 3 [7] rfl (by simp) (by decide)).2
      (by decide) "ProjB" "PHID-B" "" rfl rfl rfl
  simpa using h

/-! ### Claim C2 -/

/-- Lookups for the C2 counterexample. -/
def lkC2 : Lookups :=
  ⟨[5], fun _ => some "ProjC", fun _ => some "PHID-C", fun _ => some "Col"⟩

/-- Query results for the C2 counterexample: an as-of points event with
value "0" (which parses as the integer 0) and a static story-point field
of "5". -/
def qC2 : TaskQueryResults :=
  ⟨some ("Title", "5"), none, none, some "0", [5], []⟩

/-- Claim C2 is false as stated: an as-of points event whose value parses
as the integer 0 does not take precedence — Python `if points_from_trans:`
is false at 0, so the chain falls through to the static story-point field
and the row records 5, not 0. -/
theorem C2_counterexample :
    points_from_trans qC2 = some 0 ∧
    reconstruct_task_on_date 1 10 "scope1" (some 3) lkC2 qC2 =
      .ok (some { scope := "scope1", date := 10, id := 1, status := "",
                  projectId := 5, project := "ProjC", projectcolumn := "",
                  points := some 5, maintType := "", priority := "" }) :=
  ⟨rfl, rfl⟩

/-- Claim C2 (amended): the Snapshot's points value follows the fallback
chain with Python truthiness at each stage: an as-of points event value
that parses as a nonzero integer is used; otherwise (no event, unparsable
value, or the value 0) a static story-point field parsing as a nonzero
integer is used; otherwise the configured scope-wide default (possibly
unset) is used.  A value parsing as the integer 0 does not take
precedence: it falls through to the next stage. -/
theorem C2_points_fallback (task_id wd : Nat) (scope : String)
    (dp : Option Int) (lk : Lookups) (q : TaskQueryResults)
    (row : TaskOnDateRow)
    (h : reconstruct_task_on_date task_id wd scope dp lk q = .ok (some row)) :
    (∀ v : Int, points_from_trans q = some v → v ≠ 0 → row.points = some v) ∧
    ((points_from_trans q = none ∨ points_from_trans q = some 0) →
       (∀ w : Int, points_from_info q = some w → w ≠ 0 → row.points = some w) ∧
       ((points_from_info q = none ∨ points_from_info q = some 0) →
          row.points = dp)) := by
  have hpts := reconstruct_ok_points task_id wd scope dp lk q row h
  refine ⟨fun v hv h0 => ?_, fun ht => ⟨fun w hw h0 => ?_, fun hi => ?_⟩⟩
  · rw [hpts, prettyPoints_of_trans q dp v hv h0]
  · rw [hpts, prettyPoints_of_info q dp w ht hw h0]
  · rw [hpts, prettyPoints_of_default q dp ht hi]

/-- Query results for the C2 witness: no points event, static field "5",
exercising the static-field stage of the chain. -/
def qC2w : TaskQueryResults :=
  ⟨some ("Title", "5"), none, none, none, [5], []⟩

/-- Witness for the amended C2 theorem: with no points event and static
story-point field "5", the stored points are 5. -/
theorem C2_points_fallback_witness :
    ({ scope := "scope1", date := 10, id := 1, status := "",
       projectId := 5, project := "ProjC", projectcolumn := "",
       points := some 5, maintType := "", priority := "" } :
       TaskOnDateRow).points = some 5 :=
  ((C2_points_fallback 1 10 "scope1" (some 3) lkC2 qC2w _ rfl).2
    (Or.inl rfl)).1 5 rfl (by decide)

/-! ### Claim C3 -/

/-- Lookups for the C3 witness. -/
def lkC3 : Lookups :=
  ⟨[5], fun _ => some "ProjD", fun _ => some "PHID-D", fun _ => some "Col"⟩

/-- Query results with an empty as-of tag-association set. -/
def qC3empty : TaskQueryResults := ⟨none, none, none, none, [], []⟩

/-- Claim C3: an item whose as-of tag-association set is empty makes
`reconstruct_task_on_date` raise the missing-edge-data error before any
insert (the error result carries no row), and a day loop that completed
without error contains no such item — so the condition aborts the run
rather than being silently skipped. -/
theorem C3_missing_edge_abort (task_id wd : Nat) (scope : String)
    (dp : Option Int) (lk : Lookups) (q : TaskQueryResults)
    (hq : q.edges = []) :
    reconstruct_task_on_date task_id wd scope dp lk q =
        .error (missingEdgeMsg task_id) ∧
    (∀ tasks rows, reconstructDay wd scope dp lk tasks = .ok rows →
        ∀ t ∈ tasks, t.q.edges ≠ []) := by
  constructor
  · exact reconstruct_err_of_edges_nil task_id wd scope dp lk q hq
  · intro tasks
    induction tasks with
    | nil => intro rows _ t ht; exact absurd ht (List.not_mem_nil t)
    | cons a rest ih =>
      intro rows hok t ht
      rcases List.mem_cons.mp ht with rfl | hrest
      · intro hnil
        rw [reconstructDay,
          reconstruct_err_of_edges_nil t.task_id wd scope dp lk t.q hnil] at hok
        exact absurd hok (by simp)
      · unfold reconstructDay at hok
        split at hok
        · exact absurd hok (by simp)
        · exact ih _ hok t hrest
        · split at hok
          · exact absurd hok (by simp)
          · exact ih _ (by assumption) t hrest

/-- Witness for the C3 theorem: concrete empty tag set yields the
missing-edge error. -/
theorem C3_missing_edge_abort_witness :
    reconstruct_task_on_date 7 3 "scope1" none lkC3 qC3empty =
      .error (missingEdgeMsg 7) :=
  (C3_missing_edge_abort 7 3 "scope1" none lkC3 qC3empty rfl).1

/-! ### Loader helper lemmas -/

/-- The rule kinds that ever reach the `category` table: `ProjectByName`
and `ProjectsByWildcard` rows are stored as `ProjectByID` after
resolution. -/
def validStoredKinds : List String :=
  ["ProjectByID", "Intersection", "ProjectColumn", "ParentTask"]

lemma processLine_byName (env : LoaderEnv) (file scope : String)
    (line : CsvLine) (counter : Nat) (db : List StoredRule) (ids : List Int)
    (hrule : line.rule = some "ProjectByName")
    (hids : parseIdList line.id = .ok ids)
    (hlen : ids.length ≤ 1) :
    processLine env file scope line counter db =
      (match (env.lookup (line.matchstring.getD "")).head? with
       | none => .error (noMatchMsg file counter (line.matchstring.getD ""))
       | some (pid, _) =>
         if env.collides (byNameRule scope counter pid (line.matchstring.getD "")
              (line.title.getD "") (parseDisplay line.display)) db
         then .ok (counter, db)
         else .ok (counter + 1,
                db ++ [byNameRule scope counter pid (line.matchstring.getD "")
                         (line.title.getD "") (parseDisplay line.display)])) := by
  unfold processLine
  rw [hrule]
  simp only [hids]
  norm_num [validRuleList]
  rw [if_neg (fun hc => absurd hc.2 (by omega))]
  rw [if_neg (by decide)]

lemma processLine_wildcard (env : LoaderEnv) (file scope : String)
    (line : CsvLine) (counter : Nat) (db : List StoredRule) (ids : List Int)
    (hrule : line.rule = some "ProjectsByWildcard")
    (hids : parseIdList line.id = .ok ids)
    (hlen : ids.length ≤ 1) :
    processLine env file scope line counter db =
      .ok (wildcardLoop env scope (parseDisplay line.display)
            (env.lookup ("%" ++ line.matchstring.getD "" ++ "%")) counter db) := by
  unfold processLine
  rw [hrule]
  simp only [hids]
  norm_num [validRuleList]
  intro h1 h2
  exact absurd h2 (by omega)

/-- The rules produced by one wildcard expansion starting at a given
sort-order counter (the no-collision case). -/
def wildcardExpansion (scope : String) (disp : Bool) :
    List (Int × String) → Nat → List StoredRule
  | [], _ => []
  | (pid, name) :: rest, counter =>
    wildcardRule scope counter pid name disp ::
      wildcardExpansion scope disp rest (counter + 1)

lemma wildcardExpansion_length (scope : String) (disp : Bool) :
    ∀ rows counter, (wildcardExpansion scope disp rows counter).length = rows.length := by
  intro rows
  induction rows with
  | nil => intro c; rfl
  | cons pr rest ih =>
    intro c
    obtain ⟨pid, name⟩ := pr
    simp [wildcardExpansion, ih]

lemma wildcardExpansion_get (scope : String) (disp : Bool) :
    ∀ rows counter i (h : i < (wildcardExpansion scope disp rows counter).length),
      ((wildcardExpansion scope disp rows counter).get ⟨i, h⟩).sortOrder = counter + i ∧
      ((wildcardExpansion scope disp rows counter).get ⟨i, h⟩).rule = "ProjectByID" := by
  intro rows
  induction rows with
  | nil => intro c i h; simp [wildcardExpansion] at h
  | cons pr rest ih =>
    intro c i h
    obtain ⟨pid, name⟩ := pr
    match i with
    | 0 => simp [wildcardExpansion, wildcardRule]
    | Nat.succ j =>
      have h2 : j < (wildcardExpansion scope disp rest (c + 1)).length := by
        simp [wildcardExpansion] at h
        omega
      have := ih (c + 1) j h2
      simp only [wildcardExpansion, List.get_cons_succ]
      refine ⟨?_, this.2⟩
      rw [this.1]
      omega

lemma wildcardLoop_no_collision (env : LoaderEnv) (scope : String) (disp : Bool)
    (hnc : ∀ R s, env.collides R s = false) :
    ∀ rows counter db, wildcardLoop env scope disp rows counter db =
      (counter + rows.length, db ++ wildcardExpansion scope disp rows counter) := by
  intro rows
  induction rows with
  | nil => intro c db; simp [wildcardLoop, wildcardExpansion]
  | cons pr rest ih =>
    intro c db
    obtain ⟨pid, name⟩ := pr
    simp only [wildcardLoop, hnc, Bool.false_eq_true, if_false]
    rw [ih (c + 1) (db ++ [wildcardRule scope c pid name disp])]
    simp [wildcardExpansion, List.append_assoc]
    omega

lemma wildcardLoop_mem (env : LoaderEnv) (scope : String) (disp : Bool) :
    ∀ rows counter db R, R ∈ (wildcardLoop env scope disp rows counter db).2 →
      R ∈ db ∨ (R.scope = scope ∧ R.rule = "ProjectByID") := by
  intro rows
  induction rows with
  | nil => intro c db R hR; exact Or.inl hR
  | cons pr rest ih =>
    intro c db R hR
    obtain ⟨pid, name⟩ := pr
    rw [wildcardLoop] at hR
    by_cases hc : env.collides (wildcardRule scope c pid name disp) db
    · rw [if_pos hc] at hR
      exact ih c db R hR
    · rw [if_neg hc] at hR
      rcases ih (c + 1) (db ++ [wildcardRule scope c pid name disp]) R hR with hmem | hnew
      · rcases List.mem_append.mp hmem with hdb | hone
        · exact Or.inl hdb
        · right
          rcases List.mem_singleton.mp hone with rfl
          exact ⟨rfl, rfl⟩
      · exact Or.inr hnew

lemma processLine_ok_inv (env : LoaderEnv) (file scope : String) (line : CsvLine)
    (counter : Nat) (db : List StoredRule) (out : Nat × List StoredRule)
    (h : processLine env file scope line counter db = .ok out) :
    (∃ r, line.rule = some r ∧ r ∈ validRuleList ∧
      ∃ ids, parseIdList line.id = .ok ids ∧ (r ≠ "Intersection" → ids.length ≤ 1)) ∧
    (∀ R ∈ out.2, R ∈ db ∨ (R.scope = scope ∧ R.rule ∈ validStoredKinds)) := by
  unfold processLine at h
  split at h
  · exact absurd h (by simp)
  · rename_i rule hrule
    split at h
    · exact absurd h (by simp)
    · rename_i hvalid
      rw [not_not] at hvalid
      split at h
      · exact absurd h (by simp)
      · rename_i ids hids
        split at h
        · exact absurd h (by simp)
        · rename_i hmulti
          have hlen : rule ≠ "Intersection" → ids.length ≤ 1 :=
            fun hr => Nat.le_of_not_lt (fun hgt => hmulti ⟨hr, hgt⟩)
          refine ⟨⟨rule, hrule, hvalid, ids, hids, hlen⟩, ?_⟩
          split at h
          · rename_i hw
            simp only [Except.ok.injEq] at h
            subst h
            intro R hR
            rcases wildcardLoop_mem env scope (parseDisplay line.display) _ counter db R hR with hdb | hnew
            · exact Or.inl hdb
            · exact Or.inr ⟨hnew.1, by rw [hnew.2]; decide⟩
          · split at h
            · rename_i hn
              split at h
              · exact absurd h (by simp)
              · rename_i pr pid nm hhead
                split at h
                · simp only [Except.ok.injEq] at h
                  subst h
                  intro R hR
                  exact Or.inl hR
                · simp only [Except.ok.injEq] at h
                  subst h
                  intro R hR
                  rcases List.mem_append.mp hR with hdb | hone
                  · exact Or.inl hdb
                  · right
                    rcases List.mem_singleton.mp hone with rfl
                    exact ⟨rfl, (by decide : "ProjectByID" ∈ validStoredKinds)⟩
            · rename_i hw hn
              split at h
              · exact absurd h (by simp)
              · rename_i t ht
                split at h
                · simp only [Except.ok.injEq] at h
                  subst h
                  intro R hR
                  exact Or.inl hR
                · simp only [Except.ok.injEq] at h
                  subst h
                  intro R hR
                  rcases List.mem_append.mp hR with hdb | hone
                  · exact Or.inl hdb
                  · right
                    rcases List.mem_singleton.mp hone with rfl
                    refine ⟨rfl, ?_⟩
                    have hvs : rule ∈ validStoredKinds := by
                      simp only [validRuleList, List.mem_cons,
                        List.not_mem_nil, or_false] at hvalid
                      rcases hvalid with rfl | rfl | rfl | rfl | rfl | rfl
                      · decide
                      · exact absurd rfl hn
                      · exact absurd rfl hw
                      · decide
                      · decide
                      · decide
                    exact hvs

lemma importLoop_ok_inv (env : LoaderEnv) (file scope : String) :
    ∀ lines counter db db2, importLoop env file scope lines counter db = .ok db2 →
      (∀ l ∈ lines, ∃ r, l.rule = some r ∧ r ∈ validRuleList ∧
        ∃ ids, parseIdList l.id = .ok ids ∧ (r ≠ "Intersection" → ids.length ≤ 1)) ∧
      (∀ R ∈ db2, R ∈ db ∨ (R.scope = scope ∧ R.rule ∈ validStoredKinds)) := by
  intro lines
  induction lines with
  | nil =>
    intro counter db db2 h
    refine ⟨fun l hl => absurd hl (List.not_mem_nil l), fun R hR => ?_⟩
    rw [importLoop] at h
    simp only [Except.ok.injEq] at h
    subst h
    exact Or.inl hR
  | cons l rest ih =>
    intro counter db db2 h
    rw [importLoop] at h
    split at h
    · exact absurd h (by simp)
    · rename_i c2 db3 hout
      obtain ⟨hline, hmem⟩ := processLine_ok_inv env file scope l counter db (c2, db3) hout
      obtain ⟨hrest, hmem2⟩ := ih c2 db3 db2 h
      refine ⟨?_, ?_⟩
      · intro x hx
        rcases List.mem_cons.mp hx with rfl | hr
        · exact hline
        · exact hrest x hr
      · intro R hR
        rcases hmem2 R hR with hout2 | hnew
        · exact hmem R hout2
        · exact Or.inr hnew

/-! ### Claim C4 -/

/-- Environment for the C4 counterexample: two Tags match the (blank)
name exactly. -/
def envC4 : LoaderEnv :=
  ⟨fun s => if s = "" then [(1, ""), (2, "")] else [], fun _ => [], fun _ _ => false⟩

/-- A `ProjectByName` rule line with a blank match string. -/
def lineC4 : CsvLine := ⟨some "ProjectByName", some "", none, some "T", none⟩

/-- Claim C4 is false as stated: a `ProjectByName` row whose name is blank
and which matches two Tags does not fail — the loader silently stores the
first returned match (tag id 1), because `fetchone()` takes the first row
and only a zero-match result raises. -/
theorem C4_counterexample :
    (envC4.lookup "").length = 2 ∧
    import_recategorization_file envC4 "sc" [lineC4] [] =
      .ok [{ scope := "sc", sortOrder := 0, rule := "ProjectByID",
             projectIdList := [1], projectNameList := [""], matchstring := "",
             title := "T", display := true }] :=
  ⟨rfl, rfl⟩

/-- Claim C4 (amended): a `ProjectByName` row fails with an error exactly
when the exact-name lookup returns zero matches (a blank name errors only
if no Tag carries the blank name); when one or more Tags match, the first
returned match is used — silently when there are several — and stored as
a `ProjectByID` rule, subject only to the duplicate-skip policy. -/
theorem C4_project_by_name (env : LoaderEnv) (file scope : String)
    (line : CsvLine) (counter : Nat) (db : List StoredRule) (ids : List Int)
    (hrule : line.rule = some "ProjectByName")
    (hids : parseIdList line.id = .ok ids)
    (hlen : ids.length ≤ 1) :
    (env.lookup (line.matchstring.getD "") = [] →
        processLine env file scope line counter db =
          .error (noMatchMsg file counter (line.matchstring.getD ""))) ∧
    (∀ pid nm rest, env.lookup (line.matchstring.getD "") = (pid, nm) :: rest →
        processLine env file scope line counter db =
          (if env.collides (byNameRule scope counter pid (line.matchstring.getD "")
               (line.title.getD "") (parseDisplay line.display)) db
           then .ok (counter, db)
           else .ok (counter + 1,
                  db ++ [byNameRule scope counter pid (line.matchstring.getD "")
                           (line.title.getD "") (parseDisplay line.display)]))) := by
  have hred := processLine_byName env file scope line counter db ids hrule hids hlen
  constructor
  · intro hnil
    rw [hred, hnil]
    rfl
  · intro pid nm rest hlk
    rw [hred, hlk]
    rfl

/-- Environment for the C4 witness: exactly one Tag named "N". -/
def envC4w : LoaderEnv :=
  ⟨fun s => if s = "N" then [(9, "N")] else [], fun _ => [], fun _ _ => false⟩

/-- A `ProjectByName` line matching the single Tag "N". -/
def lineC4w : CsvLine := ⟨some "ProjectByName", some "N", none, some "T", none⟩

/-- Witness for the amended C4 theorem: a unique name match is stored as
one `ProjectByID` rule. -/
theorem C4_project_by_name_witness :
    processLine envC4w "f.csv" "sc" lineC4w 0 [] =
      .ok (1, [byNameRule "sc" 0 9 "N" "T" true]) := by
  have h := (C4_project_by_name envC4w "f.csv" "sc" lineC4w 0 [] [] rfl rfl
      (by decide)).2 9 "N" [] rfl
  rw [h]
  rfl

/-! ### Claim C5 -/

/-- Claim C5: a `ProjectsByWildcard` row matching N Tags, none colliding
with an already-stored rule, stores exactly N independent
`ProjectByID`-kind rules, one per matched Tag, with strictly increasing
contiguous sort orders starting at the current counter; and regardless of
collisions the row never aborts the load (duplicate expansion is a
non-fatal skip). -/
theorem C5_wildcard_expansion (env : LoaderEnv) (file scope : String)
    (line : CsvLine) (counter : Nat) (db : List StoredRule) (ids : List Int)
    (hrule : line.rule = some "ProjectsByWildcard")
    (hids : parseIdList line.id = .ok ids)
    (hlen : ids.length ≤ 1) :
    (∃ out, processLine env file scope line counter db = .ok out) ∧
    ((∀ R s, env.collides R s = false) →
      processLine env file scope line counter db =
        .ok (counter + (env.lookup ("%" ++ line.matchstring.getD "" ++ "%")).length,
             db ++ wildcardExpansion scope (parseDisplay line.display)
                     (env.lookup ("%" ++ line.matchstring.getD "" ++ "%")) counter)) ∧
    ((wildcardExpansion scope (parseDisplay line.display)
        (env.lookup ("%" ++ line.matchstring.getD "" ++ "%")) counter).length =
      (env.lookup ("%" ++ line.matchstring.getD "" ++ "%")).length) ∧
    (∀ i (h : i < (wildcardExpansion scope (parseDisplay line.display)
          (env.lookup ("%" ++ line.matchstring.getD "" ++ "%")) counter).length),
       ((wildcardExpansion scope (parseDisplay line.display)
          (env.lookup ("%" ++ line.matchstring.getD "" ++ "%")) counter).get
            ⟨i, h⟩).sortOrder = counter + i ∧
       ((wildcardExpansion scope (parseDisplay line.display)
          (env.lookup ("%" ++ line.matchstring.getD "" ++ "%")) counter).get
            ⟨i, h⟩).rule = "ProjectByID") := by
  have hred := processLine_wildcard env file scope line counter db ids hrule hids hlen
  refine ⟨⟨_, hred⟩, fun hnc => ?_, wildcardExpansion_length _ _ _ _,
    fun i h => wildcardExpansion_get _ _ _ _ i h⟩
  rw [hred, wildcardLoop_no_collision env scope (parseDisplay line.display) hnc]

/-- Environment for the C5 witness: the pattern derived from match string
"x" matches three Tags. -/
def envC5 : LoaderEnv :=
  ⟨fun s => if s = "%x%" then [(1, "ax"), (2, "bx"), (3, "cx")] else [],
   fun _ => [], fun _ _ => false⟩

/-- A `ProjectsByWildcard` line with match string "x". -/
def lineC5 : CsvLine := ⟨some "ProjectsByWildcard", some "x", none, some "T", none⟩

/-- Witness for C5: three matched Tags expand into three `ProjectByID`
rules with sort orders 0, 1, 2. -/
theorem C5_wildcard_expansion_witness :
    processLine envC5 "f.csv" "sc" lineC5 0 [] =
      .ok (3, [wildcardRule "sc" 0 1 "ax" true, wildcardRule "sc" 1 2 "bx" true,
               wildcardRule "sc" 2 3 "cx" true]) := by
  have h := (C5_wildcard_expansion envC5 "f.csv" "sc" lineC5 0 [] [] rfl rfl
      (by decide)).2.1 (fun _ _ => rfl)
  rw [h]
  rfl

/-! ### Claim C9 -/

/-- Claim C9: if the loader completed without aborting, then every row of
the definition table had a rule kind inside the fixed closed set and,
unless the kind was Intersection, at most one tag id — contrapositively,
any row with an unknown kind or with multiple ids on a single-id kind
makes the whole load fail fast with an error. -/
theorem C9_validation_fail_fast (env : LoaderEnv) (scope : String)
    (lines : List CsvLine) (db0 db : List StoredRule)
    (hok : import_recategorization_file env scope lines db0 = .ok db) :
    ∀ l ∈ lines, ∃ r, l.rule = some r ∧ r ∈ validRuleList ∧
      ∃ ids, parseIdList l.id = .ok ids ∧ (r ≠ "Intersection" → ids.length ≤ 1) :=
  (importLoop_ok_inv env (scope ++ "_recategorization.csv") scope lines 0
    (db0.filter (fun r => r.scope ≠ scope)) db hok).1

/-- Environment for the C9 witness. -/
def envC9 : LoaderEnv := ⟨fun _ => [], fun _ => ["P"], fun _ _ => false⟩

/-- A well-formed `ProjectByID` line for the C9 witness. -/
def lineC9 : CsvLine := ⟨some "ProjectByID", none, some "7", some "T", none⟩

/-- Witness for C9 at a concrete one-line table that loads successfully. -/
theorem C9_validation_fail_fast_witness :
    ∃ r, lineC9.rule = some r ∧ r ∈ validRuleList ∧
      ∃ ids, parseIdList lineC9.id = .ok ids ∧
        (r ≠ "Intersection" → ids.length ≤ 1) :=
  C9_validation_fail_fast envC9 "sc" [lineC9] []
    [plainRule "sc" 0 "ProjectByID" [7] ["P"] "" "T" true] rfl
    lineC9 (List.mem_singleton.mpr rfl)

/-! ### Claim C10 -/

lemma recatLoop_ok (scope : String) :
    ∀ rules : List StoredRule, (∀ R ∈ rules, R.rule ∈ validStoredKinds) →
      ∃ cs, recatLoop scope rules = .ok cs := by
  intro rules
  induction rules with
  | nil => intro _; exact ⟨[], rfl⟩
  | cons r rest ih =>
    intro h
    obtain ⟨cs, hcs⟩ := ih (fun x hx => h x (List.mem_cons_of_mem r hx))
    have hr := h r (List.mem_cons_self r rest)
    have hone : ∃ c, recategorizeRule scope r = .ok c := by
      simp only [validStoredKinds, List.mem_cons, List.not_mem_nil,
        or_false] at hr
      unfold recategorizeRule
      rcases hr with h1 | h1 | h1 | h1 <;> rw [h1] <;> exact ⟨_, rfl⟩
    obtain ⟨c, hc⟩ := hone
    exact ⟨c :: cs, by rw [recatLoop, hc, hcs]⟩

/-- Claim C10: every rule row stored by the loader for the scope has kind
in the four-element stored-kind set (`ProjectByName` and
`ProjectsByWildcard` rows are stored as `ProjectByID` after resolution),
so the recategorization resolver never reaches its invalid-rule error
branch on a loader-produced rule set. -/
theorem C10_stored_kinds_recat_total (env : LoaderEnv) (scope : String)
    (lines : List CsvLine) (db0 db : List StoredRule)
    (hok : import_recategorization_file env scope lines db0 = .ok db) :
    (∀ R ∈ db, R.scope = scope → R.rule ∈ validStoredKinds) ∧
    ∃ calls, recategorize scope (db.filter (fun R => R.scope == scope)) =
      .ok calls := by
  have hinv := (importLoop_ok_inv env (scope ++ "_recategorization.csv") scope
    lines 0 (db0.filter (fun r => r.scope ≠ scope)) db hok).2
  have hall : ∀ R ∈ db, R.scope = scope → R.rule ∈ validStoredKinds := by
    intro R hR hsc
    rcases hinv R hR with hbase | hnew
    · exfalso
      have hf := List.mem_filter.mp hbase
      exact absurd hsc (by simpa using hf.2)
    · exact hnew.2
  refine ⟨hall, ?_⟩
  obtain ⟨cs, hcs⟩ := recatLoop_ok scope (db.filter (fun R => R.scope == scope))
    (fun R hR => hall R (List.mem_filter.mp hR).1
      (by simpa using (List.mem_filter.mp hR).2))
  exact ⟨cs ++ [RecatCall.purgeLeftover scope], by rw [recategorize, hcs]⟩

/-- Environment for the C10 witness. -/
def envC10 : LoaderEnv := ⟨fun _ => [], fun _ => ["P"], fun _ _ => false⟩

/-- A well-formed `ProjectByID` line for the C10 witness. -/
def lineC10 : CsvLine := ⟨some "ProjectByID", none, some "7", some "T", none⟩

/-- The rule table produced by loading the C10 witness line. -/
def dbC10 : List StoredRule :=
  [plainRule "sc" 0 "ProjectByID" [7] ["P"] "" "T" true]

/-- Witness for C10 at a concrete successful load. -/
theorem C10_stored_kinds_recat_total_witness :
    (∀ R ∈ dbC10, R.scope = "sc" → R.rule ∈ validStoredKinds) ∧
    ∃ calls, recategorize "sc" (dbC10.filter (fun R => R.scope == "sc")) =
      .ok calls :=
  C10_stored_kinds_recat_total envC10 "sc" [lineC10] [] dbC10 rfl

/-! ### Claim C6 -/

/-- Claim C6: in incremental mode the start date is forced to the latest
existing Snapshot date for the scope — the result is the same whatever
start date the caller supplied — and with no prior Snapshots the run
fails with the no-incremental-base error instead of reconstructing
anything. -/
theorem C6_incremental_mode (sd : Option Nat) (ed d : Nat) (oe : Option Nat) :
    reconstructDriver true sd ed (some d) oe =
      .ok ⟨d, buildEdgeOps d ed ++ reconDayOps d ed⟩ ∧
    (∀ sd2 oe2, reconstructDriver true sd ed (some d) oe =
      reconstructDriver true sd2 ed (some d) oe2) ∧
    reconstructDriver true sd ed none oe = .error incrementalBaseMsg :=
  ⟨rfl, fun _ _ => rfl, rfl⟩

/-! ### Claim C7 -/

/-- Claim C7: in full mode the first action of a successful run is the
wipe of the scope's existing Snapshots — before any build-edges or
reconstruct-day action — and when no explicit start date is given the
start date used is the earliest event timestamp of the whole log. -/
theorem C7_full_mode (sd : Option Nat) (ed : Nat) (ls oe : Option Nat) :
    (∀ s, reconstructDriver false (some s) ed ls oe =
        .ok ⟨s, Op.wipe :: (buildEdgeOps s ed ++ reconDayOps s ed)⟩) ∧
    (∀ m, reconstructDriver false none ed ls (some m) =
        .ok ⟨m, Op.wipe :: (buildEdgeOps m ed ++ reconDayOps m ed)⟩) ∧
    (∀ run, reconstructDriver false sd ed ls oe = .ok run →
        run.ops.head? = some Op.wipe) := by
  refine ⟨fun s => rfl, fun m => rfl, fun run h => ?_⟩
  rcases sd with _ | s
  · rcases oe with _ | m
    · exact absurd h (by simp [reconstructDriver])
    · obtain rfl := Except.ok.inj h
      rfl
  · obtain rfl := Except.ok.inj h
    rfl

/-- Witness for C7: a concrete full-mode run starts with the wipe. -/
theorem C7_full_mode_witness :
    ({ startUsed := 1, ops := Op.wipe :: (buildEdgeOps 1 2 ++ reconDayOps 1 2) } :
      DriverRun).ops.head? = some Op.wipe :=
  (C7_full_mode none 2 none (some 1)).2.2 _ rfl

/-! ### Claim C8 -/

lemma reconDayOps_mem_aux : ∀ (n s ed D : Nat), D - s = n → s ≤ D → D ≤ ed →
    Op.reconDay (D + 1) ∈ reconDayOps s ed := by
  intro n
  induction n with
  | zero =>
    intro s ed D h hsD hDed
    have hsd : s = D := by omega
    subst hsd
    rw [reconDayOps, if_pos hDed]
    exact List.mem_cons_self _ _
  | succ k ih =>
    intro s ed D h hsD hDed
    have hs : s ≤ ed := by omega
    rw [reconDayOps, if_pos hs]
    exact List.mem_cons_of_mem _ (ih (s + 1) ed D (by omega) (by omega) hDed)

/-- Claim C8: for every day D of the reconstruction window the day counter
is incremented before the lookups, so the query date used for day D is
D + 1 (midnight at the end of day D): the day loop contains the
reconstruct-day action at query date D + 1, and any event with a
timestamp anywhere inside day D is among the as-of candidates at query
date D + 1, while a query at date D (start of day D) would exclude it. -/
theorem C8_end_of_day (s ed D : Nat) (hs : s ≤ D) (hD : D ≤ ed) :
    Op.reconDay (D + 1) ∈ reconDayOps s ed ∧
    (∀ (events : List TimedEvent) (attr : String) (e : TimedEvent),
       e ∈ events → e.attr = attr →
       D * secondsPerDay ≤ e.ts → e.ts < (D + 1) * secondsPerDay →
       e ∈ asOfCandidates events attr (D + 1) ∧
       e ∉ asOfCandidates events attr D) := by
  refine ⟨reconDayOps_mem_aux (D - s) s ed D rfl hs hD, ?_⟩
  intro events attr e hmem hattr h1 h2
  constructor
  · unfold asOfCandidates
    rw [List.mem_filter]
    refine ⟨hmem, ?_⟩
    simp [hattr, h2]
  · unfold asOfCandidates
    rw [List.mem_filter]
    rintro ⟨_, hfilt⟩
    rw [Bool.and_eq_true] at hfilt
    have hlt := of_decide_eq_true hfilt.2
    exact absurd hlt (not_lt.mpr h1)

/-- Witness for C8 at the concrete window 1..3 and day 2. -/
theorem C8_end_of_day_witness :
    Op.reconDay 3 ∈ reconDayOps 1 3 ∧
    (∀ (events : List TimedEvent) (attr : String) (e : TimedEvent),
       e ∈ events → e.attr = attr →
       2 * secondsPerDay ≤ e.ts → e.ts < 3 * secondsPerDay →
       e ∈ asOfCandidates events attr 3 ∧
       e ∉ asOfCandidates events attr 2) :=
  C8_end_of_day 1 3 2 (by decide) (by decide)

end Phlogiston
